import Mathlib

/-!
Verification of the user-registration service (`src/user/UserService.js`,
`src/user/UserRouter.js` and the user-registration integration tests).

The JavaScript source is embedded shallowly:

* request bodies are records of `Option String` fields (`none` models a
  JSON `null` / missing field);
* the express-validator chains attached to `POST /api/1.0/users` become a
  first-failing-rule function per field (each rule in the source is
  followed by `.bail()` or is the last of its chain, so a field reports at
  most one message: the first failing rule);
* external collaborators are parameters: `bcrypt.hash` is an abstract
  `hash : String → String`, `crypto.randomBytes length` is a byte list of
  that length, and the outcomes of `User.create` and
  `EmailService.sendAccountActivation` are booleans saying whether the
  awaited promise rejects;
* the persistent store is a `List User`; `User.create` appends,
  `User.findOne {where : {email}}` is `List.find?` on equal email.

Message strings are identified by a key (`MsgKey`); rendering a key to a
string is locale-dependent.
-/

/-- A persisted User row: the object passed to `User.create` in
`UserService.save`. -/
structure User where
  username : String
  email : String
  password : String
  activationToken : String
deriving Repr, DecidableEq

/-- A registration request body `{ username, email, password }`;
`none` models JSON `null` or an absent field. -/
structure RegRequest where
  username : Option String
  email : Option String
  password : Option String
deriving Repr, DecidableEq

/-- Keys identifying the distinct `withMessage` strings of the router plus
the catch-path and success messages. -/
inductive MsgKey
  | usernameNull | usernameSize
  | emailNull | emailInvalid | emailInUse
  | passwordNull | passwordSize | passwordPattern
  | registrationSuccess
deriving Repr, DecidableEq

/-- The English message for each key, exactly the strings hardcoded in
`UserRouter.js`. -/
def englishMsg : MsgKey → String
  | .usernameNull => "Username cannot be null"
  | .usernameSize => "Must have minimum 4 and maximum 32 characters"
  | .emailNull => "E-mail cannot be null"
  | .emailInvalid => "E-mail is not valid"
  | .emailInUse => "E-mail in use"
  | .passwordNull => "Password cannot be null"
  | .passwordSize => "Password must be at least 6 characters long"
  | .passwordPattern => "Password must have at least one uppercase, one lowercase and one number"
  | .registrationSuccess => "User created"

/-- Modelled from the spec: the Spanish message table. The localization
wiring (locale files and the i18n middleware) is not under `src/`; the
strings are the ones the repository's internationalization tests expect
for `Accept-Language - es`. -/
def spanishMsg : MsgKey → String
  | .usernameNull => "Nombre de usuario no puede ser nulo"
  | .usernameSize => "Nombre de usuario tiene que tener mínimo 4 y máximo 32 caracteres"
  | .emailNull => "E-mail no puede ser nulo"
  | .emailInvalid => "E-mail inválido"
  | .emailInUse => "E-mail ya existe"
  | .passwordNull => "Contraseña no puede ser nula"
  | .passwordSize => "Contraseña tiene que tener por lo menos 6 caracteres"
  | .passwordPattern => "Contraseña tiene que tener por lo menos una mayúscula, una minúscula y un número"
  | .registrationSuccess => "Usuario creado"

/-- Modelled from the spec: the Localizer. Recognized locales are the
default (English) and "es"; any other `Accept-Language` value falls back
to the default-locale messages. -/
def localize (lang : String) (k : MsgKey) : String :=
  if lang = "es" then spanishMsg k else englishMsg k

/-- `notEmpty()` of express-validator: fails on a missing/null field and
on the empty string. -/
def notEmptyCheck (v : Option String) : Bool :=
  match v with
  | none => false
  | some s => !(s == "")

/-- `isLength({min, max})` on a present value (a missing value cannot
reach this rule: `notEmpty().bail()` precedes it in every chain). -/
def lengthBetween (lo hi : Nat) (v : Option String) : Bool :=
  match v with
  | none => false
  | some s => lo ≤ s.length && s.length ≤ hi

/-- `isLength({min})` with no upper bound (the password chain). -/
def lengthAtLeast (lo : Nat) (v : Option String) : Bool :=
  match v with
  | none => false
  | some s => lo ≤ s.length

/-- Split a character list at every occurrence of `sep` (the semantics of
JavaScript `String.prototype.split` with a one-character separator). -/
def splitOnChar (sep : Char) : List Char → List (List Char)
  | [] => [[]]
  | c :: cs =>
      let rest := splitOnChar sep cs
      if c = sep then [] :: rest
      else
        match rest with
        | r :: rs => (c :: r) :: rs
        | [] => [[c]]

/-- Modelled from the spec: `isEmail()` of the validator library is
external code; per the spec it accepts `local@domain` with a non-empty
local part and a dot-delimited domain of non-empty labels. -/
def isEmailStr (s : String) : Bool :=
  match splitOnChar '@' s.data with
  | [localPart, domain] =>
      !localPart.isEmpty &&
        (let labels := splitOnChar '.' domain
         2 ≤ labels.length && labels.all (fun l => !l.isEmpty))
  | _ => false

/-- `isEmail()` lifted to an optional field value. -/
def isEmailCheck (v : Option String) : Bool :=
  match v with
  | none => false
  | some s => isEmailStr s

/-- Is `c` an ASCII uppercase letter (the regex class `[A-Z]`)? -/
def isUpperAscii (c : Char) : Bool := 'A' ≤ c && c ≤ 'Z'

/-- Is `c` an ASCII lowercase letter (the regex class `[a-z]`)? -/
def isLowerAscii (c : Char) : Bool := 'a' ≤ c && c ≤ 'z'

/-- Is `c` an ASCII digit (the regex class `\d`)? -/
def isDigitAscii (c : Char) : Bool := '0' ≤ c && c ≤ '9'

/-- `matches(/^(?=.*[A-Z])(?=.*[a-z])(?=.*\d).*$/)`: the string holds at
least one uppercase letter, one lowercase letter and one digit. -/
def passwordPatternStr (s : String) : Bool :=
  s.data.any isUpperAscii && s.data.any isLowerAscii && s.data.any isDigitAscii

/-- The password pattern rule lifted to an optional field value. -/
def passwordPatternCheck (v : Option String) : Bool :=
  match v with
  | none => false
  | some s => passwordPatternStr s

/-- Run a validation chain: each rule of the source chains is followed by
`.bail()` or ends its chain, so the chain reports the first failing
rule's message and evaluates no later rule. -/
def runChain (v : Option String) : List ((Option String → Bool) × MsgKey) → Option MsgKey
  | [] => none
  | (check, msg) :: rest => if check v then runChain v rest else some msg

/-- The `check('username')` chain: `notEmpty` then `isLength {min 4, max 32}`. -/
def usernameChain : List ((Option String → Bool) × MsgKey) :=
  [(notEmptyCheck, .usernameNull), (lengthBetween 4 32, .usernameSize)]

/-- The `check('email')` chain: `notEmpty` then `isEmail`. -/
def emailChain : List ((Option String → Bool) × MsgKey) :=
  [(notEmptyCheck, .emailNull), (isEmailCheck, .emailInvalid)]

/-- The `check('password')` chain: `notEmpty`, `isLength {min 6}`, then
the uppercase/lowercase/digit pattern. -/
def passwordChain : List ((Option String → Bool) × MsgKey) :=
  [(notEmptyCheck, .passwordNull), (lengthAtLeast 6, .passwordSize),
   (passwordPatternCheck, .passwordPattern)]

/-- The error the username field reports, if any. -/
def usernameFieldError (v : Option String) : Option MsgKey := runChain v usernameChain

/-- The error the email field reports, if any. -/
def emailFieldError (v : Option String) : Option MsgKey := runChain v emailChain

/-- The error the password field reports, if any. -/
def passwordFieldError (v : Option String) : Option MsgKey := runChain v passwordChain

/-- Turn one field's chain result into its contribution to the error map. -/
def fieldEntry (field : String) (r : Option MsgKey) : List (String × MsgKey) :=
  match r with
  | none => []
  | some k => [(field, k)]

/-- `validationResult(req)` as the router builds `discoveredErrors`: the
middlewares run in `username`, `email`, `password` order and each failing
field contributes its single message under its field name. -/
def validateUser (req : RegRequest) : List (String × MsgKey) :=
  fieldEntry "username" (usernameFieldError req.username) ++
    fieldEntry "email" (emailFieldError req.email) ++
      fieldEntry "password" (passwordFieldError req.password)

/-- The fields of an error map, in report order. -/
def errorFields (errs : List (String × MsgKey)) : List String := errs.map Prod.fst

/-- The chain result of a named field of a request (used to state which
fields are invalid). -/
def fieldErrorOf (req : RegRequest) (f : String) : Option MsgKey :=
  if f = "username" then usernameFieldError req.username
  else if f = "email" then emailFieldError req.email
  else if f = "password" then passwordFieldError req.password
  else none

/-- The hexadecimal digit of a nibble, as Node's `hex` encoding writes
it: `0`-`9` then lowercase `a`-`f`. -/
def hexDigit (b : Nat) : Char :=
  if b < 10 then Char.ofNat ('0'.toNat + b) else Char.ofNat ('a'.toNat + (b - 10))

/-- One byte rendered as its two hex digits (high nibble first). -/
def byteToHex (b : Nat) : List Char := [hexDigit (b / 16), hexDigit (b % 16)]

/-- The hex alphabet used by Node's `Buffer.toString('hex')`. -/
def hexAlphabet : List Char := "0123456789abcdef".data

/-- `generateToken` of `UserService.js`:
`crypto.randomBytes(length).toString('hex').substring(0, length)`. The
random source is external, so the bytes (`length` many, each below 256)
are a parameter; encoding to hex doubles the size and `substring`
truncates back to `length`. -/
def generateToken (bytes : List Nat) (length : Nat) : String :=
  String.mk (((bytes.map byteToHex).flatten).take length)

/-- `UserService.findByEmail`: `User.findOne({ where: { email } })`, an
exact-match lookup in the store. -/
def findByEmail (store : List User) (email : String) : Option User :=
  store.find? (fun u => u.email == email)

/-- An HTTP response body with messages still identified by key; the
router's hardcoded strings are recovered by `renderBody` at the default
locale. -/
inductive BodyK
  | success
  | failure (validationErrors : List (String × MsgKey))
deriving Repr, DecidableEq

/-- An HTTP response body as sent: either `{ message }` on 200 or
`{ validationErrors }` on 400. -/
inductive Body
  | message (m : String)
  | validationErrors (errs : List (String × String))
deriving Repr, DecidableEq

/-- Everything observable about one handled registration request: the
HTTP status, the body (by key), the store afterwards, the notification
dispatches attempted (`sendAccountActivation(email, token)` calls,
whether or not they succeed), and how many `bcrypt.hash` calls ran. -/
structure HandlerResult where
  status : Nat
  body : BodyK
  store : List User
  notifications : List (String × String)
  hashCalls : Nat
deriving Repr, DecidableEq

/-- The `POST /api/1.0/users` handler composed with `UserService.save`.

External collaborators are parameters: `hash` is `bcrypt.hash` (with its
salt), `bytes` is what `crypto.randomBytes(16)` returned,
`createRejects` says whether `await User.create(user)` throws, and
`emailRejects` whether `await EmailService.sendAccountActivation` throws.

Control flow of the source: if `validationResult` is non-empty, respond
400 with the collected errors; otherwise run `save` inside `try`, and on
any thrown error respond 400 with `{ email: 'E-mail in use' }` (the
caught error is not inspected). `save` hashes the password, builds the
user with a fresh 16-character token, `await`s `User.create`, then
`await`s the activation e-mail dispatch. -/
def handleRegistration (hash : String → String) (bytes : List Nat)
    (createRejects emailRejects : Bool) (store : List User) (req : RegRequest) :
    HandlerResult :=
  let errs := validateUser req
  if !errs.isEmpty then
    ⟨400, .failure errs, store, [], 0⟩
  else
    let digest := hash (req.password.getD "")
    let token := generateToken bytes 16
    let user : User := ⟨req.username.getD "", req.email.getD "", digest, token⟩
    if createRejects then
      ⟨400, .failure [("email", .emailInUse)], store, [], 1⟩
    else if emailRejects then
      ⟨400, .failure [("email", .emailInUse)], store ++ [user],
        [(req.email.getD "", token)], 1⟩
    else
      ⟨200, .success, store ++ [user], [(req.email.getD "", token)], 1⟩

/-- Render a body at a locale: the success message or the localized text
of each field error. -/
def renderBody (lang : String) : BodyK → Body
  | .success => .message (localize lang .registrationSuccess)
  | .failure errs => .validationErrors (errs.map (fun e => (e.1, localize lang e.2)))

/-- The wire-level response of one request at a locale: status code and
rendered body. -/
def respond (lang : String) (hash : String → String) (bytes : List Nat)
    (createRejects emailRejects : Bool) (store : List User) (req : RegRequest) :
    Nat × Body :=
  let r := handleRegistration hash bytes createRejects emailRejects store req
  (r.status, renderBody lang r.body)

/-- The fields named by a rendered body (empty for a success message). -/
def bodyFields : Body → List String
  | .message _ => []
  | .validationErrors errs => errs.map Prod.fst

/-- The Spanish equivalent of each English message (identity elsewhere). -/
def spanishOf (m : String) : String :=
  if m = englishMsg .usernameNull then spanishMsg .usernameNull
  else if m = englishMsg .usernameSize then spanishMsg .usernameSize
  else if m = englishMsg .emailNull then spanishMsg .emailNull
  else if m = englishMsg .emailInvalid then spanishMsg .emailInvalid
  else if m = englishMsg .emailInUse then spanishMsg .emailInUse
  else if m = englishMsg .passwordNull then spanishMsg .passwordNull
  else if m = englishMsg .passwordSize then spanishMsg .passwordSize
  else if m = englishMsg .passwordPattern then spanishMsg .passwordPattern
  else if m = englishMsg .registrationSuccess then spanishMsg .registrationSuccess
  else m

/-- Replace every message of a body through `t`, keeping fields. -/
def mapBodyMessages (t : String → String) : Body → Body
  | .message m => .message (t m)
  | .validationErrors errs => .validationErrors (errs.map (fun e => (e.1, t e.2)))

/-- Modelled from the spec: the UniquenessGuard. The custom validator
that wires `UserService.findByEmail` into the email chain is not under
`src/`; per the spec it runs only after the syntactic email rules passed
(bail semantics) and reports `email.inUse` when a user with that exact
email exists. -/
def emailChainU (store : List User) : List ((Option String → Bool) × MsgKey) :=
  emailChain ++ [(fun v => (findByEmail store (v.getD "")).isNone, .emailInUse)]

/-- The email field's chain result with the UniquenessGuard installed. -/
def emailFieldErrorU (store : List User) (v : Option String) : Option MsgKey :=
  runChain v (emailChainU store)

/-- Modelled from the spec: `validationResult` with the UniquenessGuard
in the email chain; username and password chains are unchanged. -/
def validateUserU (store : List User) (req : RegRequest) : List (String × MsgKey) :=
  fieldEntry "username" (usernameFieldError req.username) ++
    fieldEntry "email" (emailFieldErrorU store req.email) ++
      fieldEntry "password" (passwordFieldError req.password)

/-- Modelled from the spec: the handler with the UniquenessGuard
installed; everything after validation is as in `handleRegistration`. -/
def handleRegistrationU (hash : String → String) (bytes : List Nat)
    (createRejects emailRejects : Bool) (store : List User) (req : RegRequest) :
    HandlerResult :=
  let errs := validateUserU store req
  if !errs.isEmpty then
    ⟨400, .failure errs, store, [], 0⟩
  else
    let digest := hash (req.password.getD "")
    let token := generateToken bytes 16
    let user : User := ⟨req.username.getD "", req.email.getD "", digest, token⟩
    if createRejects then
      ⟨400, .failure [("email", .emailInUse)], store, [], 1⟩
    else if emailRejects then
      ⟨400, .failure [("email", .emailInUse)], store ++ [user],
        [(req.email.getD "", token)], 1⟩
    else
      ⟨200, .success, store ++ [user], [(req.email.getD "", token)], 1⟩

/-- The valid registration body the repository's tests call `validUser`. -/
def validReq : RegRequest :=
  ⟨some "user1", some "user1@mail.com", some "passworD987654"⟩

/-- A stand-in digest function used to instantiate the abstract
`bcrypt.hash` parameter on concrete inputs: it prepends the `$2b$10$`
format prefix, so it never returns its input. -/
def hashStub (s : String) : String := String.append "$2b$10$" s

/-- Sixteen concrete bytes standing in for one `crypto.randomBytes(16)`
draw. -/
def bytes16 : List Nat :=
  [0, 17, 34, 51, 68, 85, 102, 119, 136, 153, 170, 187, 204, 221, 238, 255]

/-- C5: for every password value: null or empty yields `password.null`;
otherwise length below 6 yields `password.size` (so "P4ssw" fails size);
otherwise a password missing an uppercase letter, a lowercase letter or a
digit yields `password.pattern` (so the six sample passwords fail
pattern); "passworD987654" passes; a failing rule short-circuits the
rest of the field's chain, reflected in the priority of the cases. -/
theorem password_rules :
    (∀ v : Option String, passwordFieldError v =
      if v = none ∨ v = some "" then some .passwordNull
      else if (v.getD "").length < 6 then some .passwordSize
      else if passwordPatternStr (v.getD "") = false then some .passwordPattern
      else none) ∧
    passwordFieldError (some "P4ssw") = some .passwordSize ∧
    passwordFieldError (some "alllowercase") = some .passwordPattern ∧
    passwordFieldError (some "ALLUPPERCASE") = some .passwordPattern ∧
    passwordFieldError (some "123456789") = some .passwordPattern ∧
    passwordFieldError (some "lowerandUPPER") = some .passwordPattern ∧
    passwordFieldError (some "lowerand123") = some .passwordPattern ∧
    passwordFieldError (some "UPPERAND123") = some .passwordPattern ∧
    passwordFieldError (some "passworD987654") = none := by
  refine ⟨?_, by decide, by decide, by decide, by decide, by decide, by decide,
    by decide, by decide⟩
  intro v
  match v with
  | none => simp [passwordFieldError, runChain, passwordChain, notEmptyCheck]
  | some s =>
    by_cases hs : s = ""
    · subst hs
      simp [passwordFieldError, runChain, passwordChain, notEmptyCheck]
    · by_cases hl : s.length < 6
      · simp [passwordFieldError, runChain, passwordChain, notEmptyCheck,
          lengthAtLeast, hs, hl, Nat.not_le.mpr hl]
      · by_cases hp : passwordPatternStr s = true
        · simp [passwordFieldError, runChain, passwordChain, notEmptyCheck,
            lengthAtLeast, passwordPatternCheck, hs, hl, Nat.not_lt.mp hl, hp]
        · simp [passwordFieldError, runChain, passwordChain, notEmptyCheck,
            lengthAtLeast, passwordPatternCheck, hs, hl, Nat.not_lt.mp hl,
            eq_false_of_ne_true hp]

/-- C6: for every username value: null or empty yields `username.null`;
otherwise the size rule passes exactly when the length is between 4 and
32, so lengths 3 and 33 fail with `username.size` while lengths 4 and 32
pass the username rules. -/
theorem username_rules :
    (∀ v : Option String, usernameFieldError v =
      if v = none ∨ v = some "" then some .usernameNull
      else if 4 ≤ (v.getD "").length ∧ (v.getD "").length ≤ 32 then none
      else some .usernameSize) ∧
    (∀ s : String, s.length = 3 ∨ s.length = 33 →
      usernameFieldError (some s) = some .usernameSize) ∧
    (∀ s : String, s.length = 4 ∨ s.length = 32 →
      usernameFieldError (some s) = none) := by
  have base : ∀ v : Option String, usernameFieldError v =
      if v = none ∨ v = some "" then some .usernameNull
      else if 4 ≤ (v.getD "").length ∧ (v.getD "").length ≤ 32 then none
      else some .usernameSize := by
    intro v
    match v with
    | none => simp [usernameFieldError, runChain, usernameChain, notEmptyCheck]
    | some s =>
      by_cases hs : s = ""
      · subst hs
        simp [usernameFieldError, runChain, usernameChain, notEmptyCheck]
      · by_cases hin : 4 ≤ s.length ∧ s.length ≤ 32
        · simp [usernameFieldError, runChain, usernameChain, notEmptyCheck,
            lengthBetween, hs, hin, hin.1, hin.2]
        · rcases Nat.lt_or_ge s.length 4 with hlt | hge
          · simp [usernameFieldError, runChain, usernameChain, notEmptyCheck,
              lengthBetween, hs, hin, Nat.not_le.mpr hlt]
          · have hgt : ¬ s.length ≤ 32 := fun hle => hin ⟨hge, hle⟩
            simp [usernameFieldError, runChain, usernameChain, notEmptyCheck,
              lengthBetween, hs, hin, hge, hgt]
  refine ⟨base, ?_, ?_⟩
  · intro s hlen
    have hs : ¬ s = "" := by
      intro h
      subst h
      rcases hlen with h3 | h3 <;> simp at h3
    rw [base (some s)]
    rcases hlen with h3 | h3 <;>
      simp [hs, h3]
  · intro s hlen
    have hs : ¬ s = "" := by
      intro h
      subst h
      rcases hlen with h3 | h3 <;> simp at h3
    rw [base (some s)]
    rcases hlen with h3 | h3 <;>
      simp [hs, h3]

/-- Closed instance of C6 at the boundary inputs of the tests: "usr"
(length 3) and 33 copies of the letter a fail with the size message,
while "user" (length 4) and 32 copies pass. -/
theorem username_rules_witness :
    usernameFieldError (some "usr") = some .usernameSize ∧
    usernameFieldError (some (String.mk (List.replicate 33 'a'))) = some .usernameSize ∧
    usernameFieldError (some "user") = none ∧
    usernameFieldError (some (String.mk (List.replicate 32 'a'))) = none :=
  ⟨username_rules.2.1 "usr" (Or.inl (by decide)),
   username_rules.2.1 _ (Or.inr (by decide)),
   username_rules.2.2 "user" (Or.inl (by decide)),
   username_rules.2.2 _ (Or.inr (by decide))⟩

/-- C7: for every email value: null or empty yields exactly `email.null`;
"mail.com", "user.mail.com" and "user@mail" fail with `email.invalid`
(no at-sign splitting into local and domain parts, or no dot-delimited
domain); "user1@mail.com" passes the email rules. -/
theorem email_rules :
    (∀ v : Option String, emailFieldError v = some .emailNull ↔ v = none ∨ v = some "") ∧
    emailFieldError (some "mail.com") = some .emailInvalid ∧
    emailFieldError (some "user.mail.com") = some .emailInvalid ∧
    emailFieldError (some "user@mail") = some .emailInvalid ∧
    emailFieldError (some "user1@mail.com") = none := by
  refine ⟨?_, by decide, by decide, by decide, by decide⟩
  intro v
  match v with
  | none => simp [emailFieldError, runChain, emailChain, notEmptyCheck]
  | some s =>
    by_cases hs : s = ""
    · subst hs
      simp [emailFieldError, runChain, emailChain, notEmptyCheck]
    · simp only [emailFieldError, runChain, emailChain, notEmptyCheck]
      by_cases he : isEmailCheck (some s) = true <;>
        simp [hs, he]

/-- Hex-encoding a byte list yields two characters per byte. -/
theorem flatten_byteToHex_length (l : List Nat) :
    ((l.map byteToHex).flatten).length = 2 * l.length := by
  induction l with
  | nil => simp
  | cons b bs ih =>
    simp [byteToHex, ih]
    omega

/-- Every nibble's hex digit is in the hex alphabet. -/
theorem hexDigit_mem (k : Nat) (hk : k < 16) : hexDigit k ∈ hexAlphabet := by
  interval_cases k <;> decide

/-- C9: for every requested length (16 in `UserService.save`) and any
draw of that many bytes from the random source, `generateToken` returns
a string of exactly that many characters, all from the lowercase hex
alphabet: the hex encoding has twice the requested length and
`substring(0, length)` truncates it back. -/
theorem generateToken_spec (bytes : List Nat) (n : Nat)
    (hlen : bytes.length = n) (hb : ∀ b ∈ bytes, b < 256) :
    (generateToken bytes n).length = n ∧
    ∀ c ∈ (generateToken bytes n).data, c ∈ hexAlphabet := by
  constructor
  · show (((bytes.map byteToHex).flatten).take n).length = n
    rw [List.length_take, flatten_byteToHex_length, hlen]
    omega
  · intro c hc
    have hc2 : c ∈ (bytes.map byteToHex).flatten := List.mem_of_mem_take hc
    rw [List.mem_flatten] at hc2
    obtain ⟨chunk, hchunk, hcc⟩ := hc2
    rw [List.mem_map] at hchunk
    obtain ⟨b, hbmem, rfl⟩ := hchunk
    have hb' : b < 256 := hb b hbmem
    simp only [byteToHex, List.mem_cons, List.not_mem_nil, or_false] at hcc
    rcases hcc with h | h
    · exact h ▸ hexDigit_mem _ (Nat.div_lt_of_lt_mul (by omega))
    · exact h ▸ hexDigit_mem _ (Nat.mod_lt _ (by omega))

/-- Closed instance of C9: the sixteen fixed sample bytes yield the
sixteen-character token used by `save`. -/
theorem generateToken_spec_witness :
    (generateToken bytes16 16).length = 16 :=
  (generateToken_spec bytes16 16 rfl (by decide)).1

/-- A pair in a field's error-map contribution carries that field's name
and its chain result. -/
theorem mem_fieldEntry {f name : String} {k : MsgKey} {r : Option MsgKey}
    (h : (f, k) ∈ fieldEntry name r) : f = name ∧ r = some k := by
  cases r with
  | none => simp [fieldEntry] at h
  | some k2 =>
    simp [fieldEntry] at h
    exact ⟨h.1, by rw [h.2]⟩

/-- C4: on any request with at least one invalid field the handler
responds 400 with exactly the collected errors, the store is untouched,
no hash is computed and no notification is attempted; the reported
fields are exactly the invalid ones in username, email, password order,
and each reported message is the field's (unique) first-failing-rule
message. -/
theorem validation_failure_response
    (hash : String → String) (bytes : List Nat) (createRejects emailRejects : Bool)
    (store : List User) (req : RegRequest)
    (h : validateUser req ≠ []) :
    (handleRegistration hash bytes createRejects emailRejects store req).status = 400 ∧
    (handleRegistration hash bytes createRejects emailRejects store req).body =
      .failure (validateUser req) ∧
    (handleRegistration hash bytes createRejects emailRejects store req).store = store ∧
    (handleRegistration hash bytes createRejects emailRejects store req).hashCalls = 0 ∧
    (handleRegistration hash bytes createRejects emailRejects store req).notifications = [] ∧
    errorFields (validateUser req) =
      (["username", "email", "password"].filter (fun f => (fieldErrorOf req f).isSome)) ∧
    (∀ f k, (f, k) ∈ validateUser req → fieldErrorOf req f = some k) := by
  have hne : (validateUser req).isEmpty = false := by
    cases hval : validateUser req with
    | nil => exact absurd hval h
    | cons a l => rfl
  refine ⟨by simp [handleRegistration, hne], by simp [handleRegistration, hne],
    by simp [handleRegistration, hne], by simp [handleRegistration, hne],
    by simp [handleRegistration, hne], ?_, ?_⟩
  · cases h1 : usernameFieldError req.username <;>
      cases h2 : emailFieldError req.email <;>
        cases h3 : passwordFieldError req.password <;>
          simp [validateUser, errorFields, fieldEntry, fieldErrorOf, h1, h2, h3]
  · intro f k hk
    simp only [validateUser, List.mem_append] at hk
    rcases hk with (hk | hk) | hk
    · obtain ⟨rfl, hr⟩ := mem_fieldEntry hk
      simp [fieldErrorOf, hr]
    · obtain ⟨rfl, hr⟩ := mem_fieldEntry hk
      simp [fieldErrorOf, hr]
    · obtain ⟨rfl, hr⟩ := mem_fieldEntry hk
      simp [fieldErrorOf, hr]

/-- Closed instance of C4 at the spec's example request with null
username and null email: 400, errors for exactly username then email,
nothing stored, hashed or dispatched. -/
theorem validation_failure_response_witness :
    (handleRegistration hashStub bytes16 false false []
      ⟨none, none, some "passworD987654"⟩).status = 400 ∧
    (handleRegistration hashStub bytes16 false false []
      ⟨none, none, some "passworD987654"⟩).body =
      .failure [("username", .usernameNull), ("email", .emailNull)] ∧
    (handleRegistration hashStub bytes16 false false []
      ⟨none, none, some "passworD987654"⟩).store = [] ∧
    (handleRegistration hashStub bytes16 false false []
      ⟨none, none, some "passworD987654"⟩).hashCalls = 0 ∧
    (handleRegistration hashStub bytes16 false false []
      ⟨none, none, some "passworD987654"⟩).notifications = [] := by
  have h := validation_failure_response hashStub bytes16 false false []
    ⟨none, none, some "passworD987654"⟩ (by decide)
  refine ⟨h.1, ?_, h.2.2.1, h.2.2.2.1, h.2.2.2.2.1⟩
  rw [h.2.1]
  decide

/-- C1: a request passing all validation whose email is not stored yet
is answered 200 with the success message; the handler appends exactly
one row holding the submitted username and email, the digest of the
password (different from the plaintext), and the generated 16-character
token, and attempts exactly one activation dispatch carrying that email
and token. -/
theorem successful_registration
    (hash : String → String) (bytes : List Nat) (store : List User)
    (req : RegRequest) (lang : String)
    (hv : validateUser req = [])
    (hfree : findByEmail store (req.email.getD "") = none)
    (hhash : hash (req.password.getD "") ≠ req.password.getD "")
    (hlen : bytes.length = 16) (hbyte : ∀ b ∈ bytes, b < 256) :
    (handleRegistration hash bytes false false store req).status = 200 ∧
    renderBody lang (handleRegistration hash bytes false false store req).body =
      .message (localize lang .registrationSuccess) ∧
    (handleRegistration hash bytes false false store req).store =
      store ++ [⟨req.username.getD "", req.email.getD "",
        hash (req.password.getD ""), generateToken bytes 16⟩] ∧
    (handleRegistration hash bytes false false store req).store.length =
      store.length + 1 ∧
    hash (req.password.getD "") ≠ req.password.getD "" ∧
    (generateToken bytes 16).length = 16 ∧
    (handleRegistration hash bytes false false store req).notifications =
      [(req.email.getD "", generateToken bytes 16)] ∧
    (handleRegistration hash bytes false false store req).hashCalls = 1 := by
  refine ⟨by simp [handleRegistration, hv], by simp [handleRegistration, hv, renderBody],
    by simp [handleRegistration, hv], by simp [handleRegistration, hv], hhash,
    (generateToken_spec bytes 16 hlen hbyte).1,
    by simp [handleRegistration, hv], by simp [handleRegistration, hv]⟩

/-- Closed instance of C1 at the tests' valid user against an empty
store: 200, one row appended, digest differs from the plaintext. -/
theorem successful_registration_witness :
    (handleRegistration hashStub bytes16 false false [] validReq).status = 200 ∧
    (handleRegistration hashStub bytes16 false false [] validReq).store.length = 1 ∧
    hashStub "passworD987654" ≠ "passworD987654" ∧
    (handleRegistration hashStub bytes16 false false [] validReq).notifications =
      [("user1@mail.com", generateToken bytes16 16)] := by
  have h := successful_registration hashStub bytes16 [] validReq "en"
    (by decide) rfl (by decide) (by decide) (by decide)
  exact ⟨h.1, by rw [h.2.2.2.1]; rfl, h.2.2.2.2.1, h.2.2.2.2.2.2.1⟩

/-- C3 counterexample: with an empty store (so the email is certainly
not a duplicate) and a rejecting `User.create`, the handler answers 400
with the email-in-use body, not any 5xx status: the catch block does not
inspect the thrown error. -/
theorem store_failure_counterexample :
    findByEmail [] "user1@mail.com" = none ∧
    (handleRegistration hashStub bytes16 true false [] validReq).status = 400 ∧
    ¬ 500 ≤ (handleRegistration hashStub bytes16 true false [] validReq).status ∧
    renderBody "en" (handleRegistration hashStub bytes16 true false [] validReq).body =
      .validationErrors [("email", "E-mail in use")] := by
  refine ⟨rfl, by decide, by decide, by decide⟩

/-- C3 amended: any failure of `User.create` — duplicate email or an
unexpected store fault alike — is answered HTTP 400 with the email field
mapped to the email-in-use message; the store is unchanged and no
notification is attempted. No 5xx path exists in the handler. -/
theorem store_failure_mapped_to_email_in_use
    (hash : String → String) (bytes : List Nat) (emailRejects : Bool)
    (store : List User) (req : RegRequest) (lang : String)
    (hv : validateUser req = []) :
    (handleRegistration hash bytes true emailRejects store req).status = 400 ∧
    renderBody lang (handleRegistration hash bytes true emailRejects store req).body =
      .validationErrors [("email", localize lang .emailInUse)] ∧
    (handleRegistration hash bytes true emailRejects store req).store = store ∧
    (handleRegistration hash bytes true emailRejects store req).notifications = [] := by
  refine ⟨by simp [handleRegistration, hv], by simp [handleRegistration, hv, renderBody],
    by simp [handleRegistration, hv], by simp [handleRegistration, hv]⟩

/-- Closed instance of the amended C3 at the tests' valid user. -/
theorem store_failure_mapped_witness :
    (handleRegistration hashStub bytes16 true false [] validReq).status = 400 ∧
    (handleRegistration hashStub bytes16 true false [] validReq).store = [] :=
  have h := store_failure_mapped_to_email_in_use hashStub bytes16 false [] validReq "en"
    (by decide)
  ⟨h.1, h.2.2.1⟩

/-- C10: when the row is created but the activation dispatch throws, the
handler answers 400 with the email-in-use body — byte-for-byte the same
status and body as a duplicate-email failure — while the freshly created
row (digest and token included) stays in the store and the one dispatch
attempt is on record. -/
theorem notification_failure_response
    (hash : String → String) (bytes : List Nat)
    (store : List User) (req : RegRequest) (lang : String)
    (hv : validateUser req = []) :
    (handleRegistration hash bytes false true store req).status = 400 ∧
    renderBody lang (handleRegistration hash bytes false true store req).body =
      .validationErrors [("email", localize lang .emailInUse)] ∧
    (handleRegistration hash bytes false true store req).store =
      store ++ [⟨req.username.getD "", req.email.getD "",
        hash (req.password.getD ""), generateToken bytes 16⟩] ∧
    (handleRegistration hash bytes false true store req).notifications =
      [(req.email.getD "", generateToken bytes 16)] ∧
    (handleRegistration hash bytes false true store req).status =
      (handleRegistration hash bytes true false store req).status ∧
    (handleRegistration hash bytes false true store req).body =
      (handleRegistration hash bytes true false store req).body := by
  refine ⟨by simp [handleRegistration, hv], by simp [handleRegistration, hv, renderBody],
    by simp [handleRegistration, hv], by simp [handleRegistration, hv],
    by simp [handleRegistration, hv], by simp [handleRegistration, hv]⟩

/-- Closed instance of C10 at the tests' valid user: 400 email-in-use,
yet the row is in the store. -/
theorem notification_failure_response_witness :
    (handleRegistration hashStub bytes16 false true [] validReq).status = 400 ∧
    (handleRegistration hashStub bytes16 false true [] validReq).store =
      [⟨"user1", "user1@mail.com", hashStub "passworD987654",
        generateToken bytes16 16⟩] := by
  have h := notification_failure_response hashStub bytes16 [] validReq "en" (by decide)
  exact ⟨h.1, by rw [h.2.2.1]; rfl⟩

/-- An email-field pair in the guard-extended error map carries the
email chain's (unique) result. -/
theorem mem_email_validateUserU {store : List User} {req : RegRequest} {k : MsgKey}
    (h : ("email", k) ∈ validateUserU store req) :
    emailFieldErrorU store req.email = some k := by
  simp only [validateUserU, List.mem_append] at h
  rcases h with (h | h) | h
  · exact absurd (mem_fieldEntry h).1 (by decide)
  · exact (mem_fieldEntry h).2
  · exact absurd (mem_fieldEntry h).1 (by decide)

/-- C2: with the UniquenessGuard installed, an email that passes the
syntactic rules and is already stored (exact match found by
`findByEmail`) makes the request fail 400 with `email.inUse` on the
email field; the guard runs only after the syntactic rules pass, so a
syntactic email error and an in-use error never co-occur in one
response. -/
theorem email_uniqueness_guard
    (hash : String → String) (bytes : List Nat) (createRejects emailRejects : Bool)
    (store : List User) (req : RegRequest)
    (hne : notEmptyCheck req.email = true)
    (hsyn : isEmailCheck req.email = true)
    (hdup : (findByEmail store (req.email.getD "")).isSome = true) :
    emailFieldErrorU store req.email = some .emailInUse ∧
    ("email", MsgKey.emailInUse) ∈ validateUserU store req ∧
    (handleRegistrationU hash bytes createRejects emailRejects store req).status = 400 ∧
    (∀ st : List User, ∀ r : RegRequest,
      ¬ (("email", MsgKey.emailInvalid) ∈ validateUserU st r ∧
        ("email", MsgKey.emailInUse) ∈ validateUserU st r)) ∧
    (∀ st : List User, ∀ v : Option String,
      emailFieldErrorU st v = some MsgKey.emailInUse →
        notEmptyCheck v = true ∧ isEmailCheck v = true) := by
  have part1 : emailFieldErrorU store req.email = some .emailInUse := by
    cases hfind : findByEmail store (req.email.getD "") with
    | none => rw [hfind] at hdup; cases hdup
    | some u =>
      simp [emailFieldErrorU, runChain, emailChainU, emailChain, hne, hsyn, hfind]
  have part2 : ("email", MsgKey.emailInUse) ∈ validateUserU store req := by
    simp [validateUserU, fieldEntry, part1]
  refine ⟨part1, part2, ?_, ?_, ?_⟩
  · cases hval : validateUserU store req with
    | nil => rw [hval] at part2; cases part2
    | cons a l => simp [handleRegistrationU, hval]
  · rintro st r ⟨hinv, hinuse⟩
    have h1 := mem_email_validateUserU hinv
    have h2 := mem_email_validateUserU hinuse
    rw [h1] at h2
    cases h2
  · intro st v h
    cases hne2 : notEmptyCheck v with
    | false => simp [emailFieldErrorU, runChain, emailChainU, emailChain, hne2] at h
    | true =>
      cases hsyn2 : isEmailCheck v with
      | false => simp [emailFieldErrorU, runChain, emailChainU, emailChain, hne2, hsyn2] at h
      | true => exact ⟨rfl, rfl⟩

/-- Closed instance of C2: registering the tests' valid user while a row
with the same email is stored yields `email.inUse` and status 400. -/
theorem email_uniqueness_guard_witness :
    emailFieldErrorU [⟨"user1", "user1@mail.com", "h", "t"⟩]
      (some "user1@mail.com") = some .emailInUse ∧
    (handleRegistrationU hashStub bytes16 false false
      [⟨"user1", "user1@mail.com", "h", "t"⟩] validReq).status = 400 := by
  have h := email_uniqueness_guard hashStub bytes16 false false
    [⟨"user1", "user1@mail.com", "h", "t"⟩] validReq (by decide) (by decide) (by decide)
  exact ⟨h.1, h.2.2.1⟩

/-- The Spanish translation table inverts the English one key by key. -/
theorem spanishOf_englishMsg (k : MsgKey) : spanishOf (englishMsg k) = spanishMsg k := by
  cases k <;> rfl

/-- `mapBodyMessages` never changes which fields a body names. -/
theorem bodyFields_mapBodyMessages (t : String → String) (b : Body) :
    bodyFields (mapBodyMessages t b) = bodyFields b := by
  cases b with
  | message m => rfl
  | validationErrors errs => simp [mapBodyMessages, bodyFields]

/-- C8: requesting locale "es" yields, for the same request and store,
the same status and the same failing fields with every message replaced
by its Spanish equivalent (success message included); any locale other
than "es" is answered with the default-locale response. -/
theorem locale_behavior
    (hash : String → String) (bytes : List Nat) (createRejects emailRejects : Bool)
    (store : List User) (req : RegRequest) (lang : String) (hl : lang ≠ "es") :
    respond lang hash bytes createRejects emailRejects store req =
      respond "en" hash bytes createRejects emailRejects store req ∧
    (respond "es" hash bytes createRejects emailRejects store req).1 =
      (respond "en" hash bytes createRejects emailRejects store req).1 ∧
    bodyFields (respond "es" hash bytes createRejects emailRejects store req).2 =
      bodyFields (respond "en" hash bytes createRejects emailRejects store req).2 ∧
    (respond "es" hash bytes createRejects emailRejects store req).2 =
      mapBodyMessages spanishOf
        (respond "en" hash bytes createRejects emailRejects store req).2 := by
  have hren : ∀ b : BodyK, renderBody lang b = renderBody "en" b := by
    intro b
    cases b with
    | success => simp [renderBody, localize, hl]
    | failure errs => simp [renderBody, localize, hl]
  have hes : ∀ b : BodyK,
      renderBody "es" b = mapBodyMessages spanishOf (renderBody "en" b) := by
    intro b
    cases b with
    | success => simp [renderBody, localize, mapBodyMessages, spanishOf_englishMsg]
    | failure errs =>
      simp only [renderBody, localize, mapBodyMessages, List.map_map]
      refine congrArg Body.validationErrors (List.map_congr_left ?_)
      intro e he
      simp [Function.comp, spanishOf_englishMsg]
  have h4 : (respond "es" hash bytes createRejects emailRejects store req).2 =
      mapBodyMessages spanishOf
        (respond "en" hash bytes createRejects emailRejects store req).2 := by
    simp only [respond]
    exact hes _
  refine ⟨?_, rfl, ?_, h4⟩
  · simp only [respond]
    rw [hren]
  · rw [h4, bodyFields_mapBodyMessages]

/-- Closed instance of C8: an unrecognized locale ("fr") is answered
with the default-locale response, and the "es" response is the
message-by-message translation of it. -/
theorem locale_behavior_witness :
    respond "fr" hashStub bytes16 false false [] validReq =
      respond "en" hashStub bytes16 false false [] validReq ∧
    (respond "es" hashStub bytes16 false false [] validReq).2 =
      mapBodyMessages spanishOf
        (respond "en" hashStub bytes16 false false [] validReq).2 := by
  have h := locale_behavior hashStub bytes16 false false [] validReq "fr" (by decide)
  exact ⟨h.1, h.2.2.2⟩
